import Mathlib

/-!
Verification of the `server` package of the oauth2 authorization-server engine
(src/server/server.go) against its natural-language specification.

The Go code is shallowly embedded: pure functions become Lean functions, fallible
operations return `Except Err`, optional collaborator hooks are `Option`-valued
function fields, and the possibility of a nil-function-pointer dereference is made
explicit with an outer `Option` (where `none` models a Go panic).  Operations that
the specification constrains to not invoke certain collaborators are instrumented
with an explicit call trace (`List CallTag`) recording every collaborator and
token-manager invocation, in order.

The sibling packages `gopkg.in/oauth2.v3` (protocol constants, interfaces) and
`gopkg.in/oauth2.v3/errors` (sentinel error values and static description/status
tables) belong to this repository but are not part of the embedded source tree;
the few definitions taken from them are modelled from the specification and are
marked as such in their doc comments.
-/

set_option autoImplicit false

/-- The protocol-level error kinds of the errors package, as enumerated by the
specification (RFC 6749/6750-aligned).  Each Go sentinel error value
(`errors.ErrInvalidRequest`, ...) is identified with one kind. -/
inductive ErrKind where
  | invalidRequest
  | unauthorizedClient
  | accessDenied
  | unsupportedResponseType
  | invalidScope
  | serverError
  | unsupportedGrantType
  | invalidGrant
  | invalidClient
  | invalidAuthorizeCode
  | invalidRefreshToken
  | expiredRefreshToken
  | invalidAccessToken
  deriving DecidableEq, Repr

/-- Modelled from the spec: the `Error()` message of each sentinel error value of
the errors package (the RFC 6749 error tokens for the protocol kinds, plain
phrases for the storage-level kinds). -/
def ErrKind.message : ErrKind → String
  | .invalidRequest => "invalid_request"
  | .unauthorizedClient => "unauthorized_client"
  | .accessDenied => "access_denied"
  | .unsupportedResponseType => "unsupported_response_type"
  | .invalidScope => "invalid_scope"
  | .serverError => "server_error"
  | .unsupportedGrantType => "unsupported_grant_type"
  | .invalidGrant => "invalid_grant"
  | .invalidClient => "invalid_client"
  | .invalidAuthorizeCode => "invalid authorize code"
  | .invalidRefreshToken => "invalid refresh token"
  | .expiredRefreshToken => "expired refresh token"
  | .invalidAccessToken => "invalid access token"

/-- A Go `error` value as used by the engine: a sentinel error of the errors
package (`kind`), some other error (`base`, e.g. created by `errors.New`), or a
wrapper produced by `github.com/pkg/errors` (`wrap` for `Wrap`/`Wrapf`, which adds
a message, and `withStack`, which adds only a stack).  Go compares sentinel errors
by identity, which the embedding mirrors: only the unwrapped `kind k` value is
equal to the sentinel for kind `k`. -/
inductive Err where
  | kind (k : ErrKind)
  | base (msg : String)
  | wrap (e : Err) (msg : String)
  | withStack (e : Err)
  deriving DecidableEq, Repr

/-- The `Error()` string of an error value (pkg/errors: `Wrap` renders
`msg ++ ": " ++ cause`, `WithStack` renders the cause unchanged). -/
def Err.message : Err → String
  | .kind k => k.message
  | .base m => m
  | .wrap e m => m ++ ": " ++ e.message
  | .withStack e => e.message

/-- `perrors.Cause`: strip all pkg/errors wrappers. -/
def Err.cause : Err → Err
  | .wrap e _ => e.cause
  | .withStack e => e.cause
  | .kind k => .kind k
  | .base m => .base m

/-- The protocol kind at the root of an error value, if any. -/
def Err.rootKind : Err → Option ErrKind
  | .kind k => some k
  | .base _ => none
  | .wrap e _ => e.rootKind
  | .withStack e => e.rootKind

/-- Modelled from the spec: the static description table of the errors package
(`errors.Descriptions`), mapping each sentinel error kind to its fixed
human-readable description.  The exact wording is immaterial to the claims; what
matters is that the table is fixed per kind. -/
def descriptions : ErrKind → String
  | .invalidRequest => "The request is missing a required parameter"
  | .unauthorizedClient => "The client is not authorized to request an authorization code using this method"
  | .accessDenied => "The resource owner or authorization server denied the request"
  | .unsupportedResponseType => "The authorization server does not support obtaining an authorization code using this method"
  | .invalidScope => "The requested scope is invalid, unknown, or malformed"
  | .serverError => "The authorization server encountered an unexpected condition"
  | .unsupportedGrantType => "The authorization grant type is not supported by the authorization server"
  | .invalidGrant => "The provided authorization grant is invalid, expired or revoked"
  | .invalidClient => "Client authentication failed"
  | .invalidAuthorizeCode => "The authorization code is invalid"
  | .invalidRefreshToken => "The refresh token is invalid"
  | .expiredRefreshToken => "The refresh token is expired"
  | .invalidAccessToken => "The access token is invalid"

/-- Modelled from the spec: the static HTTP status-code table of the errors
package (`errors.StatusCodes`). -/
def statusCodes : ErrKind → Int
  | .invalidRequest => 400
  | .unauthorizedClient => 401
  | .accessDenied => 403
  | .unsupportedResponseType => 401
  | .invalidScope => 400
  | .serverError => 500
  | .unsupportedGrantType => 401
  | .invalidGrant => 401
  | .invalidClient => 401
  | .invalidAuthorizeCode => 400
  | .invalidRefreshToken => 400
  | .expiredRefreshToken => 400
  | .invalidAccessToken => 401

/-- Lookup of an error value in the static tables.  Only the unwrapped sentinel
values are keys of the Go maps, so wrapped or foreign errors are not found. -/
def tableLookup : Err → Option (String × Int)
  | .kind k => some (descriptions k, statusCodes k)
  | _ => none

/-- Response type constant `oauth2.Code`. -/
def responseTypeCode : String := "code"

/-- Response type constant `oauth2.Token`. -/
def responseTypeToken : String := "token"

/-- Grant type constant `oauth2.AuthorizationCode`. -/
def grantAuthorizationCode : String := "authorization_code"

/-- Grant type constant `oauth2.PasswordCredentials`. -/
def grantPasswordCredentials : String := "password"

/-- Grant type constant `oauth2.ClientCredentials`. -/
def grantClientCredentials : String := "client_credentials"

/-- Grant type constant `oauth2.Refreshing`. -/
def grantRefreshing : String := "refreshing"

/-- Modelled from the spec: `ResponseType.String` of the oauth2 package (this
repository, not under src/): the string form of the two known response types,
and the empty string for anything missing or unparseable. -/
def respTypeString (rt : String) : String :=
  if rt = responseTypeCode ∨ rt = responseTypeToken then rt else ""

/-- Modelled from the spec: `GrantType.String` of the oauth2 package: the string
form of the four supported grant types, and the empty string otherwise. -/
def grantTypeString (gt : String) : String :=
  if gt = grantAuthorizationCode ∨ gt = grantPasswordCredentials ∨
      gt = grantClientCredentials ∨ gt = grantRefreshing then gt else ""

/-- A JSON-like field value used in the engine's `map[string]interface{}`
response payloads: the engine only ever stores strings and 64-bit integers. -/
inductive JValue where
  | str (s : String)
  | int (i : Int)
  deriving DecidableEq, Repr

/-- `fmt.Sprint` of a stored field value. -/
def jToString : JValue → String
  | .str s => s
  | .int i => toString i

/-- Lookup in a field mapping (association list standing for a Go
`map[string]interface{}`; the engine keeps keys distinct). -/
def dataGet (d : List (String × JValue)) (k : String) : Option JValue :=
  (d.find? (fun kv => kv.1 == k)).map (fun kv => kv.2)

/-- `oauth2.TokenInfo` as read by the engine: the accessors it calls.  The
remaining access-token lifetime is a Go `time.Duration`, i.e. a signed 64-bit
count of nanoseconds. -/
structure TokenInfo where
  access : String
  refresh : String
  scope : String
  accessExpiresIn : Int
  code : String
  deriving DecidableEq, Repr

/-- `oauth2.TokenGenerateRequest`. -/
structure TokenGenerateRequest where
  clientID : String := ""
  clientSecret : String := ""
  userID : String := ""
  redirectURI : String := ""
  code : String := ""
  refresh : String := ""
  scope : String := ""
  accessTokenExp : Int := 0
  deriving DecidableEq, Repr

/-- `server.AuthorizeRequest` (the `Request` back-pointer to the raw
`http.Request` is omitted: the embedded operations never read it). -/
structure AuthorizeRequest where
  redirectURI : String
  responseType : String
  clientID : String
  state : String
  scope : String
  userID : String := ""
  accessTokenExp : Int := 0
  deriving DecidableEq, Repr

/-- The parts of an `http.Request` the engine reads: the method, the parsed
form (reads of absent keys yield `""`, as `FormValue` does), and the
`Authorization` header. -/
structure HttpRequest where
  method : String
  form : List (String × String)
  authHeader : String := ""
  deriving DecidableEq, Repr

/-- `r.FormValue(key)`. -/
def HttpRequest.formValue (r : HttpRequest) (k : String) : String :=
  ((r.form.find? (fun kv => kv.1 == k)).map (fun kv => kv.2)).getD ""

/-- `server.Config`. -/
structure Config where
  allowedResponseTypes : List String
  allowedGrantTypes : List String
  tokenType : String
  allowGetAccessRequest : Bool

/-- `errors.Response`: the structured error response built by the error mapper.
The Go zero value has a nil `Error`, empty strings, and zero numbers. -/
structure ErrResponse where
  error : Option Err := none
  errorCode : Int := 0
  description : String := ""
  uri : String := ""
  statusCode : Int := 0
  header : List (String × String) := []
  deriving DecidableEq, Repr

/-- One collaborator or token-manager invocation, for the call traces. -/
inductive CallTag where
  | clientAuthorized
  | clientScope
  | refreshingScope
  | internalError
  | responseError
  | extensionFields
  | passwordAuthorization
  | checkUserPerm
  | clientInfo
  | mgrGenerateAuthToken
  | mgrGenerateAccessToken
  | mgrRefreshAccessToken
  | mgrLoadRefreshToken
  | mgrLoadAccessToken
  deriving DecidableEq, Repr

/-- The token-manager collaborator (`oauth2.Manager`), restricted to the
operations the embedded engine calls. -/
structure Manager where
  generateAuthToken : String → TokenGenerateRequest → Except Err TokenInfo
  generateAccessToken : String → TokenGenerateRequest → Except Err TokenInfo
  refreshAccessToken : TokenGenerateRequest → Except Err TokenInfo
  loadRefreshToken : String → Except Err TokenInfo
  loadAccessToken : String → Except Err TokenInfo

/-- `server.Server`: the configuration, the manager, and the collaborator hooks.
Hooks that `NewServer` leaves unset and the code guards with a nil check are
`Option`-valued (`none` = unconfigured).  `clientInfoHandler` and
`passwordAuthorizationHandler` are always present after `NewServer` (it installs
defaults), so they are plain functions.  `checkUserPermHandler` gets no default
and the code calls it without a nil check, so it is `Option`-valued and its call
site must handle `none` explicitly. -/
structure Server where
  config : Config
  manager : Manager
  clientInfoHandler : HttpRequest → Except Err (String × String)
  clientAuthorizedHandler : Option (String → String → Except Err Bool) := none
  clientScopeHandler : Option (String → String → Except Err Bool) := none
  passwordAuthorizationHandler : String → String → Except Err String
  refreshingScopeHandler : Option (String → String → Except Err Bool) := none
  internalErrorHandler : Option (Err → Option ErrResponse) := none
  responseErrorHandler : Option (ErrResponse → ErrResponse) := none
  extensionFieldsHandler : Option (TokenInfo → List (String × JValue)) := none
  checkUserPermHandler : Option (String → String → Option Err) := none

/-- `strings.HasPrefix` on character lists. -/
def listStarts : List Char → List Char → Bool
  | _, [] => true
  | [], _ :: _ => false
  | c :: cs, d :: ds => c == d && listStarts cs ds

/-- `strings.HasPrefix s p`. -/
def strStarts (s p : String) : Bool := listStarts s.toList p.toList

/-- `strings.Contains s c` for a single character, on the character list. -/
def strContains (s : String) (c : Char) : Bool := s.toList.contains c

/-- Go string slicing `s[n:]`; the engine only slices off the ASCII prefix
`Bearer `, where byte and character offsets coincide. -/
def strDropChars (s : String) (n : Nat) : String := String.mk (s.toList.drop n)

/-- `Server.BearerAuth` (src/server/server.go:525-537): extract the bearer token
from the `Authorization` header or the `access_token` form field. -/
def BearerAuth (s : Server) (r : HttpRequest) : String × Bool :=
  let auth := r.authHeader
  let token :=
    if auth ≠ "" ∧ strStarts auth "Bearer " = true then strDropChars auth ("Bearer ".length)
    else r.formValue "access_token"
  (token, token != "")

/-- Split a character list at the first occurrence of `c`, dropping it;
`none` when `c` does not occur. -/
def splitFirstAux (c : Char) : List Char → Option (List Char × List Char)
  | [] => none
  | x :: xs =>
    if x = c then some ([], xs)
    else (splitFirstAux c xs).map (fun p => (x :: p.1, p.2))

/-- Characters the URL model accepts unescaped in a host. -/
def hostCharOk (c : Char) : Bool :=
  c.isAlphanum || c == Char.ofNat 45 || c == Char.ofNat 46 ||
    c == Char.ofNat 95 || c == Char.ofNat 126

/-- Characters the URL model accepts unescaped in a path. -/
def pathCharOk (c : Char) : Bool :=
  hostCharOk c || c == Char.ofNat 47

/-- Bytes Go's fragment escaper (`url.escape` with `encodeFragment`) leaves
unescaped: alphanumerics, the unreserved marks, the sub-delims, and
colon/at/slash/question mark. -/
def fragByteOk (b : Nat) : Bool :=
  (48 ≤ b && b ≤ 57) || (65 ≤ b && b ≤ 90) || (97 ≤ b && b ≤ 122) ||
    [45, 46, 95, 126, 33, 36, 38, 39, 40, 41, 42, 43, 44, 59, 61, 58, 64, 47, 63].contains b

/-- Bytes Go's query escaper (`url.QueryEscape`) leaves unescaped. -/
def queryByteOk (b : Nat) : Bool :=
  (48 ≤ b && b ≤ 57) || (65 ≤ b && b ≤ 90) || (97 ≤ b && b ≤ 122) ||
    [45, 46, 95, 126].contains b

/-- Upper-case hexadecimal digit, as Go's `url.escape` emits. -/
def hexDigit (n : Nat) : Char :=
  if n < 10 then Char.ofNat (48 + n) else Char.ofNat (55 + n)

/-- The UTF-8 encoding of a character, as the byte values Go iterates over when
escaping a string. -/
def charUTF8Bytes (c : Char) : List Nat :=
  let n := c.toNat
  if n < 0x80 then [n]
  else if n < 0x800 then [0xC0 + n / 64, 0x80 + n % 64]
  else if n < 0x10000 then [0xE0 + n / 4096, 0x80 + (n / 64) % 64, 0x80 + n % 64]
  else [0xF0 + n / 262144, 0x80 + (n / 4096) % 64, 0x80 + (n / 64) % 64, 0x80 + n % 64]

/-- The UTF-8 bytes of a string (Go strings are byte sequences). -/
def stringBytes (s : String) : List Nat :=
  s.toList.flatMap charUTF8Bytes

/-- The components of a parsed `net/url.URL` the engine uses. -/
structure URL where
  scheme : String
  host : String
  path : String
  rawQuery : String
  fragment : String
  deriving DecidableEq, Repr

/-- Model of `url.Parse`, restricted to the well-behaved absolute URIs the engine
is given: `scheme://host[/path][?query][#fragment]` with unreserved host and path
characters and a fragment whose characters need no escaping (so that parsing and
re-rendering are exact inverses, as they are in Go on this subset).  The raw
query is kept verbatim, exactly as Go does.  Returns `none` outside the subset;
the claims quantify over parseable redirect URIs. -/
def parseURL (str : String) : Option URL :=
  let cs := str.toList
  let fragSplit :=
    match splitFirstAux (Char.ofNat 35) cs with
    | none => (cs, ([] : List Char))
    | some p => p
  if fragSplit.2.all (fun c => fragByteOk c.toNat) then
    let querySplit :=
      match splitFirstAux (Char.ofNat 63) fragSplit.1 with
      | none => (fragSplit.1, ([] : List Char))
      | some p => p
    match splitFirstAux (Char.ofNat 58) querySplit.1 with
    | none => none
    | some schemeRest =>
      if schemeRest.1 ≠ [] ∧ schemeRest.1.all Char.isAlpha ∧
          schemeRest.2.take 2 = [Char.ofNat 47, Char.ofNat 47] then
        let hostPath := schemeRest.2.drop 2
        let hp :=
          match splitFirstAux (Char.ofNat 47) hostPath with
          | none => (hostPath, ([] : List Char))
          | some p => (p.1, Char.ofNat 47 :: p.2)
        if hp.1 ≠ [] ∧ hp.1.all hostCharOk ∧ hp.2.all pathCharOk then
          some { scheme := String.mk schemeRest.1, host := String.mk hp.1,
                 path := String.mk hp.2, rawQuery := String.mk querySplit.2,
                 fragment := String.mk fragSplit.2 }
        else none
      else none
  else none

/-- Go's fragment escaper applied when a `url.URL` with a set `Fragment` is
rendered by `URL.String`: every UTF-8 byte outside the allowed set becomes a
percent escape. -/
def escapeFragment (s : String) : String :=
  String.join ((stringBytes s).map (fun b =>
    if fragByteOk b then String.singleton (Char.ofNat b)
    else String.mk [Char.ofNat 37, hexDigit (b / 16), hexDigit (b % 16)]))

/-- `url.QueryEscape`: spaces become `+`, unreserved bytes stay, everything else
becomes a percent escape. -/
def queryEscape (s : String) : String :=
  String.join ((stringBytes s).map (fun n =>
    if queryByteOk n then String.singleton (Char.ofNat n)
    else if n = 32 then "+"
    else String.mk [Char.ofNat 37, hexDigit (n / 16), hexDigit (n % 16)]))

/-- Value of a hexadecimal digit character. -/
def unhex (c : Char) : Option Nat :=
  let n := c.toNat
  if 48 ≤ n ∧ n ≤ 57 then some (n - 48)
  else if 65 ≤ n ∧ n ≤ 70 then some (n - 55)
  else if 97 ≤ n ∧ n ≤ 102 then some (n - 87)
  else none

/-- Character-level model of `url.QueryUnescape`: `+` becomes a space, `%XX`
becomes the escaped byte, anything else passes through; `none` on a malformed
escape.  Model restriction: escaped bytes at or above 0x80 (multi-byte UTF-8
sequences) are rejected rather than decoded. -/
def queryUnescapeAux : List Char → Option (List Char)
  | [] => some []
  | c :: cs =>
    if c = Char.ofNat 37 then
      match cs with
      | h1 :: h2 :: rest =>
        match unhex h1, unhex h2 with
        | some a, some b =>
          if a * 16 + b < 128 then
            (queryUnescapeAux rest).map (fun r => Char.ofNat (a * 16 + b) :: r)
          else none
        | _, _ => none
      | _ => none
    else if c = Char.ofNat 43 then
      (queryUnescapeAux cs).map (fun r => Char.ofNat 32 :: r)
    else
      (queryUnescapeAux cs).map (fun r => c :: r)

/-- `url.QueryUnescape` on strings. -/
def queryUnescape (s : String) : Option String :=
  (queryUnescapeAux s.toList).map (fun l => String.mk l)

/-- `url.Values.Set`: replace every entry for the key by the single new value.
The association list stands for the Go `map[string][]string`. -/
def valuesSet (q : List (String × String)) (k v : String) : List (String × String) :=
  q.filter (fun kv => kv.1 != k) ++ [(k, v)]

/-- First value recorded for a key, if any. -/
def valuesGet (q : List (String × String)) (k : String) : Option String :=
  (q.find? (fun kv => kv.1 == k)).map (fun kv => kv.2)

/-- Strict lexicographic comparison of character lists by code point (for valid
UTF-8 this coincides with Go's bytewise string order). -/
def listLess : List Char → List Char → Bool
  | [], [] => false
  | [], _ :: _ => true
  | _ :: _, [] => false
  | c :: cs, d :: ds =>
    if c.toNat < d.toNat then true
    else if d.toNat < c.toNat then false
    else listLess cs ds

/-- Go's string order `a < b`. -/
def strLess (a b : String) : Bool := listLess a.toList b.toList

/-- Stable insertion into a key-sorted association list. -/
def insertByKey (kv : String × String) : List (String × String) → List (String × String)
  | [] => [kv]
  | x :: xs => if strLess kv.1 x.1 then kv :: x :: xs else x :: insertByKey kv xs

/-- Sort parameters by key (Go's `Values.Encode` sorts its keys). -/
def sortValues (q : List (String × String)) : List (String × String) :=
  q.foldl (fun acc kv => insertByKey kv acc) []

/-- `url.Values.Encode`: key-sorted, query-escaped `k=v` pairs joined by `&`. -/
def encodeValues (q : List (String × String)) : String :=
  String.intercalate "&" ((sortValues q).map (fun kv => queryEscape kv.1 ++ "=" ++ queryEscape kv.2))

/-- `url.ParseQuery` as used by `URL.Query()`: split on `&`, skip segments
containing `;` or with an empty key or an invalid escape, cut each segment at
the first `=`, and unescape both halves.  Parse errors skip the segment, as
`URL.Query()` discards the error. -/
def parseQuery (s : String) : List (String × String) :=
  if s = "" then []
  else
    (s.splitOn "&").foldl (fun acc seg =>
      if strContains seg (Char.ofNat 59) then acc
      else
        let cut :=
          match splitFirstAux (Char.ofNat 61) seg.toList with
          | none => (seg.toList, ([] : List Char))
          | some p => p
        if cut.1 = [] then acc
        else
          match queryUnescapeAux cut.1, queryUnescapeAux cut.2 with
          | some k, some v => acc ++ [(String.mk k, String.mk v)]
          | _, _ => acc) []

/-- `url.URL.String` on the subset produced by `parseURL` and the engine: the
raw query is emitted verbatim behind `?` when non-empty, the fragment is escaped
behind a hash mark when non-empty. -/
def urlToString (u : URL) : String :=
  u.scheme ++ "://" ++ u.host ++ u.path ++
    (if u.rawQuery ≠ "" then String.singleton (Char.ofNat 63) ++ u.rawQuery else "") ++
    (if u.fragment ≠ "" then String.singleton (Char.ofNat 35) ++ escapeFragment u.fragment else "")

/-- `Server.CheckResponseType` (src/server/server.go:142-149). -/
def CheckResponseType (s : Server) (rt : String) : Bool :=
  s.config.allowedResponseTypes.any (fun art => art == rt)

/-- `Server.CheckGrantType` (src/server/server.go:346-353). -/
def CheckGrantType (s : Server) (gt : String) : Bool :=
  s.config.allowedGrantTypes.any (fun agt => agt == gt)

/-- `Server.ValidationAuthorizeRequest` (src/server/server.go:152-176). -/
def ValidationAuthorizeRequest (s : Server) (r : HttpRequest) : Except Err AuthorizeRequest :=
  let redirectURI := r.formValue "redirect_uri"
  let clientID := r.formValue "client_id"
  if ¬ (r.method = "GET" ∨ r.method = "POST") ∨ clientID = "" then
    .error (.kind .invalidRequest)
  else
    let resType := r.formValue "response_type"
    if respTypeString resType = "" then
      .error (.kind .unsupportedResponseType)
    else if CheckResponseType s resType = false then
      .error (.kind .unauthorizedClient)
    else
      .ok { redirectURI := redirectURI, responseType := resType, clientID := clientID,
            state := r.formValue "state", scope := r.formValue "scope" }

/-- The parameter set `q` assembled inside `GetRedirectURI`
(src/server/server.go:111-121): the parsed query of the redirect URI — or a
fresh empty set when the raw redirect URI contains a hash mark — with `state`
set when non-empty, then every data key set (string converted). -/
def collectedParams (req : AuthorizeRequest) (u : URL) (data : List (String × JValue)) :
    List (String × String) :=
  let q0 := if strContains req.redirectURI (Char.ofNat 35) then [] else parseQuery u.rawQuery
  let q1 := if req.state ≠ "" then valuesSet q0 "state" req.state else q0
  data.foldl (fun q kv => valuesSet q kv.1 (jToString kv.2)) q1

/-- `Server.GetRedirectURI` (src/server/server.go:104-139). -/
def GetRedirectURI (s : Server) (req : AuthorizeRequest) (data : List (String × JValue)) :
    Except Err String :=
  match parseURL req.redirectURI with
  | none => .error (.base "parse redirect uri error")
  | some u =>
    let q := collectedParams req u data
    if req.responseType = responseTypeCode then
      if strContains req.redirectURI (Char.ofNat 35) then
        .ok (req.redirectURI ++ String.singleton (Char.ofNat 63) ++ encodeValues q)
      else
        .ok (urlToString { u with rawQuery := encodeValues q })
    else if req.responseType = responseTypeToken then
      match queryUnescape (encodeValues q) with
      | none => .error (.base "unescape error")
      | some frag => .ok (urlToString { u with rawQuery := "", fragment := frag })
    else
      .ok (urlToString u)

/-- The core mapping `GetTokenData` builds before extension fields
(src/server/server.go:427-440); `expires_in` uses Go's truncating 64-bit
integer division of the remaining lifetime by `time.Second`. -/
def getTokenDataCore (s : Server) (ti : TokenInfo) : List (String × JValue) :=
  let data := [("access_token", JValue.str ti.access),
               ("token_type", JValue.str s.config.tokenType),
               ("expires_in", JValue.int (ti.accessExpiresIn.tdiv 1000000000))]
  let data := if ti.scope ≠ "" then data ++ [("scope", JValue.str ti.scope)] else data
  if ti.refresh ≠ "" then data ++ [("refresh_token", JValue.str ti.refresh)] else data

/-- `Server.GetTokenData` (src/server/server.go:427-452): the core mapping with
the extension collaborator's fields merged in, skipping keys already present. -/
def GetTokenData (s : Server) (ti : TokenInfo) : List (String × JValue) :=
  let data := getTokenDataCore s ti
  match s.extensionFieldsHandler with
  | none => data
  | some fn => (fn ti).foldl (fun d kv => if (dataGet d kv.1).isSome then d else d ++ [kv]) data

/-- `Server.GetAuthorizeData` (src/server/server.go:217-224). -/
def GetAuthorizeData (s : Server) (rt : String) (ti : TokenInfo) : List (String × JValue) :=
  if rt = responseTypeCode then [("code", JValue.str ti.code)] else GetTokenData s ti

/-- The scope check of the refreshing branch of `GetAccessToken`
(src/server/server.go:395-411), with its call trace. -/
def refreshingScopeCheck (s : Server) (tgr : TokenGenerateRequest) :
    Except Err Unit × List CallTag :=
  match s.refreshingScopeHandler with
  | some scopeFn =>
    if tgr.scope ≠ "" then
      match s.manager.loadRefreshToken tgr.refresh with
      | .error e =>
        if e = .kind .invalidRefreshToken ∨ e = .kind .expiredRefreshToken then
          (.error (.kind .invalidGrant), [.mgrLoadRefreshToken])
        else (.error e, [.mgrLoadRefreshToken])
      | .ok rti =>
        match scopeFn tgr.scope rti.scope with
        | .error e => (.error e, [.mgrLoadRefreshToken, .refreshingScope])
        | .ok false => (.error (.kind .invalidScope), [.mgrLoadRefreshToken, .refreshingScope])
        | .ok true => (.ok (), [.mgrLoadRefreshToken, .refreshingScope])
    else (.ok (), [])
  | none => (.ok (), [])

/-- The refreshing branch of `GetAccessToken` (src/server/server.go:394-420). -/
def refreshingDispatch (s : Server) (tgr : TokenGenerateRequest) (tr : List CallTag) :
    Except Err TokenInfo × List CallTag :=
  match refreshingScopeCheck s tgr with
  | (.error e, tr2) => (.error e, tr ++ tr2)
  | (.ok _, tr2) =>
    match s.manager.refreshAccessToken tgr with
    | .error e =>
      if e = .kind .invalidRefreshToken ∨ e = .kind .expiredRefreshToken then
        (.error (.kind .invalidGrant), tr ++ tr2 ++ [.mgrRefreshAccessToken])
      else (.error e, tr ++ tr2 ++ [.mgrRefreshAccessToken])
    | .ok ti => (.ok ti, tr ++ tr2 ++ [.mgrRefreshAccessToken])

/-- The per-grant-type switch of `GetAccessToken` (src/server/server.go:370-423),
entered once the grant type and the client authorization have been checked;
`tr` is the trace accumulated so far. -/
def getAccessTokenDispatch (s : Server) (gt : String) (tgr : TokenGenerateRequest)
    (tr : List CallTag) : Except Err TokenInfo × List CallTag :=
  if gt = grantAuthorizationCode then
    match s.manager.generateAccessToken gt tgr with
    | .ok ti => (.ok ti, tr ++ [.mgrGenerateAccessToken])
    | .error e =>
      if e = .kind .invalidAuthorizeCode then
        (.error (.withStack (.kind .invalidGrant)), tr ++ [.mgrGenerateAccessToken])
      else if e = .kind .invalidClient then
        (.error (.withStack (.kind .invalidClient)), tr ++ [.mgrGenerateAccessToken])
      else (.error (.withStack e), tr ++ [.mgrGenerateAccessToken])
  else if gt = grantPasswordCredentials ∨ gt = grantClientCredentials then
    match s.clientScopeHandler with
    | some fn =>
      match fn tgr.clientID tgr.scope with
      | .error e => (.error e, tr ++ [.clientScope])
      | .ok false => (.error (.kind .invalidScope), tr ++ [.clientScope])
      | .ok true =>
        match s.manager.generateAccessToken gt tgr with
        | .ok ti => (.ok ti, tr ++ [.clientScope, .mgrGenerateAccessToken])
        | .error e => (.error e, tr ++ [.clientScope, .mgrGenerateAccessToken])
    | none =>
      match s.manager.generateAccessToken gt tgr with
      | .ok ti => (.ok ti, tr ++ [.mgrGenerateAccessToken])
      | .error e => (.error e, tr ++ [.mgrGenerateAccessToken])
  else if gt = grantRefreshing then
    refreshingDispatch s tgr tr
  else
    (.error (.kind .unsupportedGrantType), tr)

/-- `Server.GetAccessToken` (src/server/server.go:356-424), instrumented with a
call trace of every collaborator and token-manager invocation, in order. -/
def GetAccessToken (s : Server) (gt : String) (tgr : TokenGenerateRequest) :
    Except Err TokenInfo × List CallTag :=
  if CheckGrantType s gt then
    match s.clientAuthorizedHandler with
    | none => getAccessTokenDispatch s gt tgr []
    | some fn =>
      match fn tgr.clientID gt with
      | .error e => (.error (.wrap e "client authorized"), [.clientAuthorized])
      | .ok false => (.error (.withStack (.kind .unauthorizedClient)), [.clientAuthorized])
      | .ok true => getAccessTokenDispatch s gt tgr [.clientAuthorized]
  else
    (.error (.wrap (.kind .unauthorizedClient) ("check grant type " ++ grantTypeString gt)), [])

/-- `Server.ValidationTokenRequest` (src/server/server.go:285-343).  The outer
`Option` models a Go runtime panic: `none` is the nil-function dereference that
happens when the password branch reaches the unconditional call of
`s.CheckUserPermHandler` with that handler unconfigured. -/
def ValidationTokenRequest (s : Server) (r : HttpRequest) :
    Option (Except Err (String × TokenGenerateRequest)) :=
  if ¬ (r.method = "POST" ∨ (s.config.allowGetAccessRequest ∧ r.method = "GET")) then
    some (.error (.wrap (.kind .invalidRequest) "invalid request method"))
  else
    let gt := r.formValue "grant_type"
    if grantTypeString gt = "" then
      some (.error (.wrap (.kind .unsupportedGrantType) "no grant type"))
    else
      match s.clientInfoHandler r with
      | .error e => some (.error (.withStack e))
      | .ok cid =>
        let tgr : TokenGenerateRequest := { clientID := cid.1, clientSecret := cid.2 }
        if gt = grantAuthorizationCode then
          let tgr := { tgr with redirectURI := r.formValue "redirect_uri",
                                code := r.formValue "code" }
          if tgr.redirectURI = "" ∨ tgr.code = "" then
            some (.error (.wrap (.kind .invalidRequest) "missing redirect_uri or code"))
          else some (.ok (gt, tgr))
        else if gt = grantPasswordCredentials then
          let tgr := { tgr with scope := r.formValue "scope" }
          let username := r.formValue "username"
          let password := r.formValue "password"
          if username = "" ∨ password = "" then some (.error (.kind .invalidRequest))
          else
            match s.passwordAuthorizationHandler username password with
            | .error e => some (.error e)
            | .ok userID =>
              if userID = "" then some (.error (.kind .invalidGrant))
              else
                match s.checkUserPermHandler with
                | none => none
                | some fn =>
                  match fn userID (r.formValue "client_id") with
                  | some e => some (.error e)
                  | none => some (.ok (gt, { tgr with userID := userID }))
        else if gt = grantClientCredentials then
          some (.ok (gt, { tgr with scope := r.formValue "scope" }))
        else if gt = grantRefreshing then
          let tgr := { tgr with refresh := r.formValue "refresh_token",
                                scope := r.formValue "scope" }
          if tgr.refresh = "" then some (.error (.kind .invalidRequest))
          else some (.ok (gt, tgr))
        else some (.ok (gt, tgr))

/-- Rendering of a resolved `errors.Response` into the field mapping, status and
headers returned by `GetErrorData` (src/server/server.go:499-521); the status
defaults to 500 whenever the resolved status code is not positive. -/
def renderResponse (re : ErrResponse) : List (String × JValue) × Int × List (String × String) :=
  let data : List (String × JValue) :=
    match re.error with
    | some e => [("error", JValue.str e.message)]
    | none => []
  let data := if re.errorCode ≠ 0 then data ++ [("error_code", JValue.int re.errorCode)] else data
  let data := if re.description ≠ "" then data ++ [("error_description", JValue.str re.description)] else data
  let data := if re.uri ≠ "" then data ++ [("error_uri", JValue.str re.uri)] else data
  let status : Int := if re.statusCode > 0 then re.statusCode else 500
  (data, status, re.header)

/-- The response the static table yields for a sentinel error kind. -/
def tableResponse (k : ErrKind) : ErrResponse :=
  { error := some (.kind k), description := descriptions k, statusCode := statusCodes k }

/-- `Server.GetErrorData` (src/server/server.go:475-522), instrumented with the
trace of collaborator invocations. -/
def GetErrorData (s : Server) (e : Err) :
    (List (String × JValue) × Int × List (String × String)) × List CallTag :=
  let resolved :=
    match tableLookup e with
    | some dv => (({ error := some e, description := dv.1, statusCode := dv.2 } : ErrResponse),
                  ([] : List CallTag))
    | none =>
      let fromHook :=
        match s.internalErrorHandler with
        | some fn =>
          match fn e with
          | some v => (v, [CallTag.internalError])
          | none => (({} : ErrResponse), [CallTag.internalError])
        | none => (({} : ErrResponse), ([] : List CallTag))
      if fromHook.1.error = none then
        ({ fromHook.1 with error := some (.kind .serverError),
                           description := descriptions .serverError,
                           statusCode := statusCodes .serverError }, fromHook.2)
      else fromHook
  match s.responseErrorHandler with
  | some fn => (renderResponse (fn resolved.1), resolved.2 ++ [CallTag.responseError])
  | none => (renderResponse resolved.1, resolved.2)

/-- A sample token info: an access token with a two-hour remaining lifetime. -/
def tiSample : TokenInfo :=
  { access := "tok1", refresh := "", scope := "", accessExpiresIn := 7200000000000,
    code := "abc123" }

/-- A token info whose original scope is `read` (refresh-grant scenario). -/
def tiRead : TokenInfo :=
  { access := "a1", refresh := "r1", scope := "read", accessExpiresIn := 0, code := "" }

/-- The default configuration (`NewConfig`): both response types and all four
grant types allowed. -/
def cfgSample : Config :=
  { allowedResponseTypes := [responseTypeCode, responseTypeToken],
    allowedGrantTypes := [grantAuthorizationCode, grantPasswordCredentials,
                          grantClientCredentials, grantRefreshing],
    tokenType := "Bearer", allowGetAccessRequest := false }

/-- A token manager whose operations all succeed with `tiSample`. -/
def mgrSample : Manager :=
  { generateAuthToken := fun _ _ => .ok tiSample,
    generateAccessToken := fun _ _ => .ok tiSample,
    refreshAccessToken := fun _ => .ok tiSample,
    loadRefreshToken := fun _ => .ok tiSample,
    loadAccessToken := fun _ => .ok tiSample }

/-- A server as `NewServer` builds it: default configuration, no optional
collaborators, deny-by-default password authorization. -/
def srvSample : Server :=
  { config := cfgSample, manager := mgrSample,
    clientInfoHandler := fun _ => .ok ("c1", "secret"),
    passwordAuthorizationHandler := fun _ _ => .error (.kind .accessDenied) }

/-- A sample token generate request. -/
def tgrSample : TokenGenerateRequest := { clientID := "c1" }

/-- `any` of an equality test is false when the element is absent. -/
theorem list_any_beq_eq_false {l : List String} {x : String} (h : x ∉ l) :
    l.any (fun y => y == x) = false := by
  cases hc : l.any (fun y => y == x) with
  | false => rfl
  | true =>
    obtain ⟨y, hy, hbeq⟩ := List.any_eq_true.mp hc
    exact absurd (eq_of_beq hbeq ▸ hy) h

/-- `any` of an equality test is true when the element is present. -/
theorem list_any_beq_eq_true {l : List String} {x : String} (h : x ∈ l) :
    l.any (fun y => y == x) = true :=
  List.any_eq_true.mpr ⟨x, h, beq_self_eq_true x⟩

/-- A grant type outside the configured allow-list fails `CheckGrantType`. -/
theorem CheckGrantType_eq_false {s : Server} {gt : String}
    (h : gt ∉ s.config.allowedGrantTypes) : CheckGrantType s gt = false :=
  list_any_beq_eq_false h

/-- A response type outside the configured allow-list fails `CheckResponseType`. -/
theorem CheckResponseType_eq_false {s : Server} {rt : String}
    (h : rt ∉ s.config.allowedResponseTypes) : CheckResponseType s rt = false :=
  list_any_beq_eq_false h

/-- A response type inside the configured allow-list passes `CheckResponseType`. -/
theorem CheckResponseType_eq_true {s : Server} {rt : String}
    (h : rt ∈ s.config.allowedResponseTypes) : CheckResponseType s rt = true :=
  list_any_beq_eq_true h

/-- After `valuesSet q k v`, looking up `k` yields `v`. -/
theorem valuesGet_set_self (q : List (String × String)) (k v : String) :
    valuesGet (valuesSet q k v) k = some v := by
  induction q with
  | nil => simp [valuesSet, valuesGet]
  | cons x xs ih =>
    by_cases hx : x.1 = k
    · simpa [valuesSet, hx] using ih
    · have hne : (x.1 != k) = true := by simpa using hx
      have hbeq : (x.1 == k) = false := by simpa using hx
      simpa [valuesSet, valuesGet, hne, hbeq] using ih

/-- `valuesSet` for a different key does not change a lookup. -/
theorem valuesGet_set_ne (q : List (String × String)) {k k2 : String} (v : String)
    (h : k2 ≠ k) : valuesGet (valuesSet q k v) k2 = valuesGet q k2 := by
  have hbeq : (k == k2) = false := by simpa using fun he => h he.symm
  induction q with
  | nil => simp [valuesSet, valuesGet, List.find?, hbeq]
  | cons x xs ih =>
    by_cases hx : x.1 = k
    · have hne : (x.1 != k) = false := by simpa using hx
      have hbx : (x.1 == k2) = false := by rw [hx]; exact hbeq
      calc valuesGet (valuesSet (x :: xs) k v) k2
          = valuesGet (valuesSet xs k v) k2 := by
            simp [valuesSet, List.filter_cons, hne]
        _ = valuesGet xs k2 := ih
        _ = valuesGet (x :: xs) k2 := by simp [valuesGet, List.find?, hbx]
    · have hne : (x.1 != k) = true := by simpa using hx
      by_cases hx2 : x.1 = k2
      · have hbx : (x.1 == k2) = true := by simpa using hx2
        have hstep : valuesSet (x :: xs) k v = x :: valuesSet xs k v := by
          simp [valuesSet, List.filter_cons, hne]
        rw [hstep]
        simp [valuesGet, List.find?, hbx]
      · have hbx : (x.1 == k2) = false := by simpa using hx2
        have hstep : valuesSet (x :: xs) k v = x :: valuesSet xs k v := by
          simp [valuesSet, List.filter_cons, hne]
        rw [hstep]
        calc valuesGet (x :: valuesSet xs k v) k2
            = valuesGet (valuesSet xs k v) k2 := by simp [valuesGet, List.find?, hbx]
          _ = valuesGet xs k2 := ih
          _ = valuesGet (x :: xs) k2 := by simp [valuesGet, List.find?, hbx]

/-- `valuesSet` preserves presence of every key. -/
theorem valuesGet_set_isSome (q : List (String × String)) {k2 : String} (k v : String)
    (h : (valuesGet q k2).isSome) : (valuesGet (valuesSet q k v) k2).isSome := by
  by_cases hk : k2 = k
  · subst hk; simp [valuesGet_set_self]
  · rwa [valuesGet_set_ne q v hk]

/-- Folding `valuesSet` over a data list preserves presence of every key. -/
theorem foldl_set_isSome (data : List (String × JValue)) (q0 : List (String × String))
    (k : String) (h : (valuesGet q0 k).isSome) :
    (valuesGet (data.foldl (fun q kv => valuesSet q kv.1 (jToString kv.2)) q0) k).isSome := by
  induction data generalizing q0 with
  | nil => simpa using h
  | cons hd tl ih => exact ih _ (valuesGet_set_isSome q0 hd.1 (jToString hd.2) h)

/-- After folding `valuesSet` over a data list, every key of the data list is
present. -/
theorem foldl_set_mem (data : List (String × JValue)) (q0 : List (String × String))
    {kv : String × JValue} (hkv : kv ∈ data) :
    (valuesGet (data.foldl (fun q p => valuesSet q p.1 (jToString p.2)) q0) kv.1).isSome := by
  induction data generalizing q0 with
  | nil => cases hkv
  | cons hd tl ih =>
    rcases List.mem_cons.mp hkv with rfl | hkv
    · exact foldl_set_isSome tl _ kv.1 (by simp [valuesGet_set_self])
    · exact ih _ hkv

/-- Folding `valuesSet` over a data list does not touch keys outside it. -/
theorem foldl_set_not_mem (data : List (String × JValue)) (q0 : List (String × String))
    {k : String} (h : k ∉ data.map Prod.fst) :
    valuesGet (data.foldl (fun q kv => valuesSet q kv.1 (jToString kv.2)) q0) k = valuesGet q0 k := by
  induction data generalizing q0 with
  | nil => rfl
  | cons hd tl ih =>
    have hh : k ≠ hd.1 := fun he => h (by simp [he])
    have ht : k ∉ tl.map Prod.fst := fun hm => h (by simp [hm])
    rw [List.foldl_cons, ih (valuesSet q0 hd.1 (jToString hd.2)) ht,
      valuesGet_set_ne q0 (jToString hd.2) hh]

/-- A `find?` that succeeds on a list still succeeds after appending. -/
theorem find?_append_some {α : Type} (p : α → Bool) (d l : List α) (x : α)
    (h : d.find? p = some x) : (d ++ l).find? p = some x := by
  induction d with
  | nil => simp [List.find?] at h
  | cons a as ih =>
    cases ha : p a with
    | true =>
      rw [List.find?_cons_of_pos as ha] at h
      rw [List.cons_append, List.find?_cons_of_pos (as ++ l) ha]
      exact h
    | false =>
      rw [List.find?_cons_of_neg as (by simp [ha])] at h
      rw [List.cons_append, List.find?_cons_of_neg (as ++ l) (by simp [ha])]
      exact ih h

/-- A lookup that succeeds in a mapping still succeeds after appending. -/
theorem dataGet_append_left (d l : List (String × JValue)) {k : String} {v : JValue}
    (h : dataGet d k = some v) : dataGet (d ++ l) k = some v := by
  unfold dataGet at h ⊢
  obtain ⟨kv, hkv, hmap⟩ := Option.map_eq_some'.mp h
  rw [find?_append_some _ d l kv hkv]
  simpa using hmap

/-- Merging extension fields (skipping keys already present) never changes an
existing lookup. -/
theorem dataGet_merge_preserved (ext : List (String × JValue)) (d : List (String × JValue))
    {k : String} {v : JValue} (h : dataGet d k = some v) :
    dataGet (ext.foldl (fun d2 kv => if (dataGet d2 kv.1).isSome then d2 else d2 ++ [kv]) d) k
      = some v := by
  induction ext generalizing d with
  | nil => exact h
  | cons hd tl ih =>
    rw [List.foldl_cons]
    by_cases hp : (dataGet d hd.1).isSome
    · rw [if_pos hp]; exact ih d h
    · rw [if_neg hp]; exact ih _ (dataGet_append_left d [hd] h)

/-- The client-authorization step of `GetAccessToken` passes: either no
collaborator is configured, or it allows the client to use the grant type. -/
def clientAuthPasses (s : Server) (tgr : TokenGenerateRequest) (gt : String) : Prop :=
  s.clientAuthorizedHandler = none ∨
    ∃ fn, s.clientAuthorizedHandler = some fn ∧ fn tgr.clientID gt = .ok true

/-- When the grant type is allowed and the client-authorization step passes,
`GetAccessToken` reduces to the per-grant dispatch, with the trace recording
whether the client-authorization collaborator ran. -/
theorem GetAccessToken_eq_dispatch {s : Server} {gt : String} {tgr : TokenGenerateRequest}
    (hallow : CheckGrantType s gt = true) (hauth : clientAuthPasses s tgr gt) :
    GetAccessToken s gt tgr = getAccessTokenDispatch s gt tgr [] ∨
    GetAccessToken s gt tgr = getAccessTokenDispatch s gt tgr [CallTag.clientAuthorized] := by
  rcases hauth with hnone | ⟨fn, hfn, hok⟩
  · left; simp [GetAccessToken, hallow, hnone]
  · right; simp [GetAccessToken, hallow, hfn, hok]

/-- C10: `BearerAuth` returns the remainder after the `Bearer ` prefix when the
`Authorization` header is non-empty and starts with that prefix, and otherwise
returns the `access_token` form value; the returned boolean is true iff the
resulting token string is non-empty. -/
theorem BearerAuth_extraction (s : Server) (r : HttpRequest) :
    (r.authHeader ≠ "" → strStarts r.authHeader "Bearer " = true →
      (BearerAuth s r).1 = strDropChars r.authHeader ("Bearer ".length)) ∧
    ((r.authHeader = "" ∨ strStarts r.authHeader "Bearer " = false) →
      (BearerAuth s r).1 = r.formValue "access_token") ∧
    ((BearerAuth s r).2 = true ↔ (BearerAuth s r).1 ≠ "") := by
  by_cases h : r.authHeader ≠ "" ∧ strStarts r.authHeader "Bearer " = true
  · refine ⟨fun _ _ => ?_, fun hc => ?_, ?_⟩
    · simp [BearerAuth, h]
    · rcases hc with hc | hc
      · exact absurd hc h.1
      · exact absurd h.2 (by simp [hc])
    · simp [BearerAuth, h, bne_iff_ne]
  · refine ⟨fun h1 h2 => absurd ⟨h1, h2⟩ h, fun _ => ?_, ?_⟩
    · simp [BearerAuth, h]
    · simp [BearerAuth, h, bne_iff_ne]

/-- The request of the bearer-extraction scenario: `Authorization: Bearer tok1`,
no form fields. -/
def reqBearerHeader : HttpRequest := { method := "GET", form := [], authHeader := "Bearer tok1" }

/-- Witness for C10: the header `Bearer tok1` yields token `tok1`, found. -/
theorem BearerAuth_extraction_witness :
    (BearerAuth srvSample reqBearerHeader).1 = "tok1" ∧
    (BearerAuth srvSample reqBearerHeader).2 = true := by
  have h := BearerAuth_extraction srvSample reqBearerHeader
  have h1 : (BearerAuth srvSample reqBearerHeader).1 = "tok1" := by
    have h2 := h.1 (by decide) (by decide)
    rw [h2]; decide
  exact ⟨h1, (h.2.2).mpr (by rw [h1]; decide)⟩

/-- C1: for a grant type outside `Config.AllowedGrantTypes`, `GetAccessToken`
fails with an error whose root kind is `UnauthorizedClient`, and no collaborator
and no token-manager operation is invoked (the trace is empty). -/
theorem GetAccessToken_unconfigured_grant (s : Server) (gt : String)
    (tgr : TokenGenerateRequest) (h : gt ∉ s.config.allowedGrantTypes) :
    ∃ e, GetAccessToken s gt tgr = (Except.error e, []) ∧
      e.rootKind = some ErrKind.unauthorizedClient := by
  refine ⟨.wrap (.kind .unauthorizedClient) ("check grant type " ++ grantTypeString gt), ?_, rfl⟩
  simp [GetAccessToken, CheckGrantType_eq_false h]

/-- A server whose configuration allows only the authorization-code grant. -/
def srvOnlyAuthCode : Server :=
  { srvSample with config := { cfgSample with allowedGrantTypes := [grantAuthorizationCode] } }

/-- Witness for C1: a password-grant call against a server that only allows the
authorization-code grant. -/
theorem GetAccessToken_unconfigured_grant_witness :
    ∃ e, GetAccessToken srvOnlyAuthCode grantPasswordCredentials tgrSample = (Except.error e, []) ∧
      e.rootKind = some ErrKind.unauthorizedClient :=
  GetAccessToken_unconfigured_grant srvOnlyAuthCode grantPasswordCredentials tgrSample (by decide)

/-- The server of the C5 failing input: `CheckUserPermHandler` left unconfigured
(as `NewServer` leaves it), password authorization succeeding. -/
def srvC5 : Server :=
  { config := cfgSample, manager := mgrSample,
    clientInfoHandler := fun _ => .ok ("c1", "secret"),
    passwordAuthorizationHandler := fun _ _ => .ok "u1" }

/-- The request of the C5 failing input: a well-formed password-grant token
request. -/
def reqC5 : HttpRequest :=
  { method := "POST",
    form := [("grant_type", "password"), ("username", "alice"), ("password", "pw"),
             ("client_id", "c1")] }

/-- C5: evaluation of `ValidationTokenRequest` at the failing input.  The result
`none` is the nil-function dereference (Go runtime panic) at the unconditional
call of the unconfigured `CheckUserPermHandler` (src/server/server.go:328): the
operation is not well-defined there, although the specification says every
collaborator except client-info and user-authorization is optional. -/
theorem ValidationTokenRequest_nil_perm_handler_panics :
    ValidationTokenRequest srvC5 reqC5 = none := by rfl

/-- C3 helper: the per-grant dispatch on the authorization-code branch returns
the manager's result unchanged on success and translates its failures, for any
accumulated trace. -/
theorem authcode_dispatch_cases (s : Server) (tgr : TokenGenerateRequest) (pre : List CallTag) :
    (∀ ti, s.manager.generateAccessToken grantAuthorizationCode tgr = .ok ti →
      (getAccessTokenDispatch s grantAuthorizationCode tgr pre).1 = .ok ti) ∧
    (∀ e, s.manager.generateAccessToken grantAuthorizationCode tgr = .error e →
      (e = .kind .invalidAuthorizeCode →
        ∃ e2, (getAccessTokenDispatch s grantAuthorizationCode tgr pre).1 = .error e2 ∧
          e2.rootKind = some ErrKind.invalidGrant) ∧
      (e = .kind .invalidClient →
        ∃ e2, (getAccessTokenDispatch s grantAuthorizationCode tgr pre).1 = .error e2 ∧
          e2.rootKind = some ErrKind.invalidClient) ∧
      (e ≠ .kind .invalidAuthorizeCode →
        ∃ e2, (getAccessTokenDispatch s grantAuthorizationCode tgr pre).1 = .error e2 ∧
          e2.rootKind = e.rootKind)) := by
  constructor
  · intro ti hti
    simp [getAccessTokenDispatch, hti]
  · intro e he
    refine ⟨fun hiac => ?_, fun hic => ?_, fun hne => ?_⟩
    · subst hiac
      refine ⟨.withStack (.kind .invalidGrant), ?_, rfl⟩
      simp [getAccessTokenDispatch, he]
    · subst hic
      refine ⟨.withStack (.kind .invalidClient), ?_, rfl⟩
      simp [getAccessTokenDispatch, he]
    · by_cases hic : e = Err.kind .invalidClient
      · subst hic
        refine ⟨.withStack (.kind .invalidClient), ?_, rfl⟩
        simp [getAccessTokenDispatch, he]
      · refine ⟨.withStack e, ?_, rfl⟩
        simp [getAccessTokenDispatch, he, hne, hic]

/-- C3: for the authorization-code grant with the grant type allowed and the
client authorized, `GetAccessToken` returns the manager's result unchanged on
success; on failure it maps `InvalidAuthorizeCode` to root kind `InvalidGrant`,
maps `InvalidClient` to root kind `InvalidClient`, and otherwise preserves the
manager error's root kind. -/
theorem GetAccessToken_authorization_code (s : Server) (tgr : TokenGenerateRequest)
    (hallow : CheckGrantType s grantAuthorizationCode = true)
    (hauth : clientAuthPasses s tgr grantAuthorizationCode) :
    (∀ ti, s.manager.generateAccessToken grantAuthorizationCode tgr = .ok ti →
      (GetAccessToken s grantAuthorizationCode tgr).1 = .ok ti) ∧
    (∀ e, s.manager.generateAccessToken grantAuthorizationCode tgr = .error e →
      (e = .kind .invalidAuthorizeCode →
        ∃ e2, (GetAccessToken s grantAuthorizationCode tgr).1 = .error e2 ∧
          e2.rootKind = some ErrKind.invalidGrant) ∧
      (e = .kind .invalidClient →
        ∃ e2, (GetAccessToken s grantAuthorizationCode tgr).1 = .error e2 ∧
          e2.rootKind = some ErrKind.invalidClient) ∧
      (e ≠ .kind .invalidAuthorizeCode →
        ∃ e2, (GetAccessToken s grantAuthorizationCode tgr).1 = .error e2 ∧
          e2.rootKind = e.rootKind)) := by
  obtain hd | hd := GetAccessToken_eq_dispatch hallow hauth <;>
    rw [hd] <;> exact authcode_dispatch_cases s tgr _

/-- Witness for C3: with the default server the successful manager result is
returned unchanged. -/
theorem GetAccessToken_authorization_code_witness :
    (GetAccessToken srvSample grantAuthorizationCode tgrSample).1 = .ok tiSample :=
  (GetAccessToken_authorization_code srvSample tgrSample (by decide) (Or.inl rfl)).1 tiSample rfl

/-- C2 helper: the refreshing branch of the dispatch, for any accumulated trace:
the refresh token's metadata is loaded first (with invalid/expired translated to
`InvalidGrant` and the refresh operation never invoked), a scope refusal fails
with `InvalidScope` without invoking the refresh operation, and on approval the
refresh operation runs with invalid/expired translated to `InvalidGrant`. -/
theorem refreshing_dispatch_cases (s : Server) (tgr : TokenGenerateRequest)
    (scopeFn : String → String → Except Err Bool) (pre : List CallTag)
    (hscope : tgr.scope ≠ "") (hfn : s.refreshingScopeHandler = some scopeFn) :
    (∀ e, s.manager.loadRefreshToken tgr.refresh = .error e →
      (getAccessTokenDispatch s grantRefreshing tgr pre).2 = pre ++ [CallTag.mgrLoadRefreshToken] ∧
      ((e = .kind .invalidRefreshToken ∨ e = .kind .expiredRefreshToken) →
        (getAccessTokenDispatch s grantRefreshing tgr pre).1 = .error (.kind .invalidGrant))) ∧
    (∀ rti, s.manager.loadRefreshToken tgr.refresh = .ok rti →
      (scopeFn tgr.scope rti.scope = .ok false →
        getAccessTokenDispatch s grantRefreshing tgr pre =
          (.error (.kind .invalidScope),
           pre ++ [CallTag.mgrLoadRefreshToken, CallTag.refreshingScope])) ∧
      (scopeFn tgr.scope rti.scope = .ok true →
        (getAccessTokenDispatch s grantRefreshing tgr pre).2 =
          pre ++ [CallTag.mgrLoadRefreshToken, CallTag.refreshingScope,
                  CallTag.mgrRefreshAccessToken] ∧
        (∀ ti, s.manager.refreshAccessToken tgr = .ok ti →
          (getAccessTokenDispatch s grantRefreshing tgr pre).1 = .ok ti) ∧
        (∀ e2, s.manager.refreshAccessToken tgr = .error e2 →
          ((e2 = .kind .invalidRefreshToken ∨ e2 = .kind .expiredRefreshToken) →
            (getAccessTokenDispatch s grantRefreshing tgr pre).1 = .error (.kind .invalidGrant))))) := by
  have hd : getAccessTokenDispatch s grantRefreshing tgr pre = refreshingDispatch s tgr pre := by
    rw [getAccessTokenDispatch, if_neg (by decide), if_neg (by decide), if_pos rfl]
  rw [hd]
  constructor
  · intro e he
    have hsc : refreshingScopeCheck s tgr =
        (if e = .kind .invalidRefreshToken ∨ e = .kind .expiredRefreshToken then
          (.error (.kind .invalidGrant), [CallTag.mgrLoadRefreshToken])
         else (.error e, [CallTag.mgrLoadRefreshToken])) := by
      rw [refreshingScopeCheck, hfn]
      simp [hscope, he]
    by_cases hk : e = Err.kind .invalidRefreshToken ∨ e = Err.kind .expiredRefreshToken
    · rw [if_pos hk] at hsc
      constructor
      · simp [refreshingDispatch, hsc]
      · intro _; simp [refreshingDispatch, hsc]
    · rw [if_neg hk] at hsc
      constructor
      · simp [refreshingDispatch, hsc]
      · intro hk2; exact absurd hk2 hk
  · intro rti hrti
    constructor
    · intro hrefuse
      have hsc : refreshingScopeCheck s tgr =
          (.error (.kind .invalidScope), [CallTag.mgrLoadRefreshToken, CallTag.refreshingScope]) := by
        rw [refreshingScopeCheck, hfn]
        simp [hscope, hrti, hrefuse]
      simp [refreshingDispatch, hsc]
    · intro hallow2
      have hsc : refreshingScopeCheck s tgr =
          (.ok (), [CallTag.mgrLoadRefreshToken, CallTag.refreshingScope]) := by
        rw [refreshingScopeCheck, hfn]
        simp [hscope, hrti, hallow2]
      refine ⟨?_, fun ti hti => ?_, fun e2 he2 hk2 => ?_⟩
      · cases hra : s.manager.refreshAccessToken tgr with
        | ok ti => simp [refreshingDispatch, hsc, hra]
        | error e2 =>
          by_cases hk2 : e2 = Err.kind .invalidRefreshToken ∨ e2 = Err.kind .expiredRefreshToken
          · simp [refreshingDispatch, hsc, hra, hk2]
          · simp [refreshingDispatch, hsc, hra, hk2]
      · simp [refreshingDispatch, hsc, hti]
      · simp [refreshingDispatch, hsc, he2, hk2]

/-- C2: for a refreshing-grant call with non-empty requested scope and a
configured refreshing-scope collaborator (the grant allowed and the client
authorized), the refresh token's metadata is loaded first with invalid/expired
translated to `InvalidGrant` and `RefreshAccessToken` never invoked on that
failure; a scope refusal fails with `InvalidScope` without invoking
`RefreshAccessToken`; otherwise `RefreshAccessToken` runs and its
invalid/expired failures are translated to `InvalidGrant`. -/
theorem GetAccessToken_refreshing_scope_flow (s : Server) (tgr : TokenGenerateRequest)
    (scopeFn : String → String → Except Err Bool)
    (hallow : CheckGrantType s grantRefreshing = true)
    (hauth : clientAuthPasses s tgr grantRefreshing)
    (hscope : tgr.scope ≠ "") (hfn : s.refreshingScopeHandler = some scopeFn) :
    ∃ pre, (pre = [] ∨ pre = [CallTag.clientAuthorized]) ∧
      ((∀ e, s.manager.loadRefreshToken tgr.refresh = .error e →
        (GetAccessToken s grantRefreshing tgr).2 = pre ++ [CallTag.mgrLoadRefreshToken] ∧
        ((e = .kind .invalidRefreshToken ∨ e = .kind .expiredRefreshToken) →
          (GetAccessToken s grantRefreshing tgr).1 = .error (.kind .invalidGrant))) ∧
      (∀ rti, s.manager.loadRefreshToken tgr.refresh = .ok rti →
        (scopeFn tgr.scope rti.scope = .ok false →
          GetAccessToken s grantRefreshing tgr =
            (.error (.kind .invalidScope),
             pre ++ [CallTag.mgrLoadRefreshToken, CallTag.refreshingScope])) ∧
        (scopeFn tgr.scope rti.scope = .ok true →
          (GetAccessToken s grantRefreshing tgr).2 =
            pre ++ [CallTag.mgrLoadRefreshToken, CallTag.refreshingScope,
                    CallTag.mgrRefreshAccessToken] ∧
          (∀ ti, s.manager.refreshAccessToken tgr = .ok ti →
            (GetAccessToken s grantRefreshing tgr).1 = .ok ti) ∧
          (∀ e2, s.manager.refreshAccessToken tgr = .error e2 →
            ((e2 = .kind .invalidRefreshToken ∨ e2 = .kind .expiredRefreshToken) →
              (GetAccessToken s grantRefreshing tgr).1 = .error (.kind .invalidGrant)))))) := by
  obtain hd | hd := GetAccessToken_eq_dispatch hallow hauth
  · exact ⟨[], Or.inl rfl, by rw [hd]; exact refreshing_dispatch_cases s tgr scopeFn [] hscope hfn⟩
  · exact ⟨[CallTag.clientAuthorized], Or.inr rfl,
      by rw [hd]; exact refreshing_dispatch_cases s tgr scopeFn [CallTag.clientAuthorized] hscope hfn⟩

/-- A refreshing-scope collaborator that refuses every requested scope. -/
def refuseScopeFn : String → String → Except Err Bool := fun _ _ => .ok false

/-- A manager whose stored refresh token has scope `read`. -/
def mgrC2 : Manager := { mgrSample with loadRefreshToken := fun _ => .ok tiRead }

/-- The server of the refresh scenario: refreshing-scope collaborator refuses,
stored refresh token has scope `read`. -/
def srvC2 : Server :=
  { srvSample with refreshingScopeHandler := some refuseScopeFn, manager := mgrC2 }

/-- The token generate request of the refresh scenario: scope widened to
`admin`. -/
def tgrC2 : TokenGenerateRequest := { clientID := "c1", refresh := "r1", scope := "admin" }

/-- Witness for C2 (spec scenario): a refresh request widening the scope is
refused with `InvalidScope` and the manager's refresh operation is never
invoked. -/
theorem GetAccessToken_refreshing_scope_flow_witness :
    ∃ pre, GetAccessToken srvC2 grantRefreshing tgrC2 =
      (.error (.kind .invalidScope),
       pre ++ [CallTag.mgrLoadRefreshToken, CallTag.refreshingScope]) := by
  obtain ⟨pre, _, h⟩ := GetAccessToken_refreshing_scope_flow srvC2 tgrC2
    refuseScopeFn (by decide) (Or.inl rfl) (by decide) rfl
  exact ⟨pre, (h.2 tiRead rfl).1 rfl⟩

/-- C4: `ValidationAuthorizeRequest` fails with `InvalidRequest` when the method
is neither GET nor POST or the `client_id` form value is empty; with
`UnsupportedResponseType` when `response_type` is empty; with
`UnauthorizedClient` when the (parseable) response type is not in the allowed
list; the token manager is never reached (the result is invariant under
replacing the manager); and on success it populates the request record directly
from the form values with no transformation. -/
theorem ValidationAuthorizeRequest_cases (s : Server) (r : HttpRequest) :
    (¬ (r.method = "GET" ∨ r.method = "POST") ∨ r.formValue "client_id" = "" →
      ValidationAuthorizeRequest s r = .error (.kind .invalidRequest)) ∧
    ((r.method = "GET" ∨ r.method = "POST") → r.formValue "client_id" ≠ "" →
      r.formValue "response_type" = "" →
      ValidationAuthorizeRequest s r = .error (.kind .unsupportedResponseType)) ∧
    ((r.method = "GET" ∨ r.method = "POST") → r.formValue "client_id" ≠ "" →
      (r.formValue "response_type" = responseTypeCode ∨
        r.formValue "response_type" = responseTypeToken) →
      r.formValue "response_type" ∉ s.config.allowedResponseTypes →
      ValidationAuthorizeRequest s r = .error (.kind .unauthorizedClient)) ∧
    (∀ m, ValidationAuthorizeRequest { s with manager := m } r = ValidationAuthorizeRequest s r) ∧
    ((r.method = "GET" ∨ r.method = "POST") → r.formValue "client_id" ≠ "" →
      (r.formValue "response_type" = responseTypeCode ∨
        r.formValue "response_type" = responseTypeToken) →
      r.formValue "response_type" ∈ s.config.allowedResponseTypes →
      ValidationAuthorizeRequest s r =
        .ok { redirectURI := r.formValue "redirect_uri",
              responseType := r.formValue "response_type",
              clientID := r.formValue "client_id",
              state := r.formValue "state", scope := r.formValue "scope" }) := by
  refine ⟨fun h1 => ?_, fun hm hcid hrt => ?_, fun hm hcid hrt hnall => ?_, fun m => rfl,
    fun hm hcid hrt hall => ?_⟩
  · simp only [ValidationAuthorizeRequest]
    rw [if_pos h1]
  · have hcond : ¬ (¬ (r.method = "GET" ∨ r.method = "POST") ∨ r.formValue "client_id" = "") := by
      push_neg
      exact ⟨hm, hcid⟩
    simp only [ValidationAuthorizeRequest]
    rw [if_neg hcond, hrt]
    simp [respTypeString, responseTypeCode, responseTypeToken]
  · have hcond : ¬ (¬ (r.method = "GET" ∨ r.method = "POST") ∨ r.formValue "client_id" = "") := by
      push_neg
      exact ⟨hm, hcid⟩
    have hne : respTypeString (r.formValue "response_type") ≠ "" := by
      rcases hrt with hrt | hrt <;> rw [hrt] <;> decide
    simp only [ValidationAuthorizeRequest]
    rw [if_neg hcond, if_neg hne, if_pos (CheckResponseType_eq_false hnall)]
  · have hcond : ¬ (¬ (r.method = "GET" ∨ r.method = "POST") ∨ r.formValue "client_id" = "") := by
      push_neg
      exact ⟨hm, hcid⟩
    have hne : respTypeString (r.formValue "response_type") ≠ "" := by
      rcases hrt with hrt | hrt <;> rw [hrt] <;> decide
    have hck : ¬ CheckResponseType s (r.formValue "response_type") = false := by
      rw [CheckResponseType_eq_true hall]; decide
    simp only [ValidationAuthorizeRequest]
    rw [if_neg hcond, if_neg hne, if_neg hck]

/-- A server whose configuration allows only the `code` response type. -/
def srvOnlyCode : Server :=
  { srvSample with config := { cfgSample with allowedResponseTypes := [responseTypeCode] } }

/-- The request of the C4 witness: a GET authorization request for the `token`
response type. -/
def reqTokenResp : HttpRequest :=
  { method := "GET", form := [("client_id", "c1"), ("response_type", "token")] }

/-- Witness for C4: a `token` response type against a server that only allows
`code` is rejected with `UnauthorizedClient`. -/
theorem ValidationAuthorizeRequest_cases_witness :
    ValidationAuthorizeRequest srvOnlyCode reqTokenResp = .error (.kind .unauthorizedClient) :=
  (ValidationAuthorizeRequest_cases srvOnlyCode reqTokenResp).2.2.1
    (Or.inl rfl) (by decide) (Or.inr (by decide)) (by decide)

/-- C8 (amended): with no response-error collaborator configured, `GetErrorData`
maps every sentinel error kind to its fixed table description and status without
consulting the internal-error collaborator.  For an error outside the table the
internal-error collaborator's response is used when it is configured and returns
a non-nil response: unchanged when that response carries an error kind, and with
a nil error kind backfilled by `ServerError`'s kind, static description and
status (the response's own code, URI and headers kept); when the collaborator is
unconfigured or returns nil, the result is `ServerError` with its static
description and status.  The rendered HTTP status defaults to 500 whenever the
resolved status code is not positive. -/
theorem GetErrorData_resolution (s : Server) (hre : s.responseErrorHandler = none) :
    (∀ k, GetErrorData s (.kind k) = (renderResponse (tableResponse k), [])) ∧
    (∀ k, dataGet (renderResponse (tableResponse k)).1 "error_description" =
        some (.str (descriptions k)) ∧
      (renderResponse (tableResponse k)).2.1 = statusCodes k) ∧
    (∀ e, tableLookup e = none →
      (s.internalErrorHandler = none →
        GetErrorData s e = (renderResponse (tableResponse .serverError), [])) ∧
      (∀ fn, s.internalErrorHandler = some fn →
        (fn e = none →
          GetErrorData s e =
            (renderResponse (tableResponse .serverError), [CallTag.internalError])) ∧
        (∀ v err, fn e = some v → v.error = some err →
          GetErrorData s e = (renderResponse v, [CallTag.internalError])) ∧
        (∀ v, fn e = some v → v.error = none →
          GetErrorData s e =
            (renderResponse { v with error := some (.kind .serverError),
                                     description := descriptions .serverError,
                                     statusCode := statusCodes .serverError },
             [CallTag.internalError])))) ∧
    (∀ re, re.statusCode ≤ 0 → (renderResponse re).2.1 = 500) := by
  refine ⟨fun k => ?_, fun k => ?_, fun e hte => ⟨fun hie => ?_, fun fn hfn => ⟨fun hnone => ?_,
    fun v err hv herr => ?_, fun v hv hverr => ?_⟩⟩, fun re hle => ?_⟩
  · simp [GetErrorData, hre, tableLookup, tableResponse]
  · cases k <;> exact ⟨by decide, by decide⟩
  · simp [GetErrorData, hre, hte, hie, tableResponse]
  · simp [GetErrorData, hre, hte, hfn, hnone, tableResponse]
  · simp [GetErrorData, hre, hte, hfn, hv, herr]
  · simp [GetErrorData, hre, hte, hfn, hv, hverr]
  · have hng : ¬ re.statusCode > 0 := by omega
    simp [renderResponse, hng]

/-- Witness for C8: the default server maps `InvalidGrant` to its fixed table
response without consulting any collaborator. -/
theorem GetErrorData_resolution_witness :
    GetErrorData srvSample (.kind .invalidGrant) = (renderResponse (tableResponse .invalidGrant), []) :=
  (GetErrorData_resolution srvSample rfl).1 ErrKind.invalidGrant

/-- A response-error collaborator that rewrites the description and status. -/
def mutateRespFn : ErrResponse → ErrResponse :=
  fun re => { re with description := "mutated", statusCode := 418 }

/-- A server with the response-error collaborator configured. -/
def srvC8 : Server := { srvSample with responseErrorHandler := some mutateRespFn }

/-- Counterexample for C8 as stated: with a response-error collaborator
configured, `GetErrorData` on the in-table error `InvalidRequest` returns a
mutated description and status instead of the table's fixed ones. -/
theorem GetErrorData_hook_counterexample :
    dataGet (GetErrorData srvC8 (.kind .invalidRequest)).1.1 "error_description" =
      some (.str "mutated") ∧
    (GetErrorData srvC8 (.kind .invalidRequest)).1.2.1 = 418 ∧
    descriptions .invalidRequest ≠ "mutated" ∧ statusCodes .invalidRequest = 400 :=
  ⟨by decide, by decide, by decide, rfl⟩

/-- The three unconditional fields of the core token-data mapping. -/
theorem getTokenDataCore_lookup (s : Server) (ti : TokenInfo) :
    dataGet (getTokenDataCore s ti) "access_token" = some (.str ti.access) ∧
    dataGet (getTokenDataCore s ti) "token_type" = some (.str s.config.tokenType) ∧
    dataGet (getTokenDataCore s ti) "expires_in" =
      some (.int (ti.accessExpiresIn.tdiv 1000000000)) := by
  by_cases h1 : ti.scope = "" <;> by_cases h2 : ti.refresh = "" <;>
    simp [getTokenDataCore, dataGet, List.find?, h1, h2]

/-- The conditional fields of the core token-data mapping. -/
theorem getTokenDataCore_cond_lookup (s : Server) (ti : TokenInfo) :
    (ti.scope ≠ "" → dataGet (getTokenDataCore s ti) "scope" = some (.str ti.scope)) ∧
    (ti.refresh ≠ "" → dataGet (getTokenDataCore s ti) "refresh_token" = some (.str ti.refresh)) ∧
    (ti.scope = "" → dataGet (getTokenDataCore s ti) "scope" = none) ∧
    (ti.refresh = "" → dataGet (getTokenDataCore s ti) "refresh_token" = none) := by
  by_cases h1 : ti.scope = "" <;> by_cases h2 : ti.refresh = "" <;>
    simp [getTokenDataCore, dataGet, List.find?, h1, h2]

/-- A successful core lookup survives the extension-field merge. -/
theorem dataGet_GetTokenData_of_core (s : Server) (ti : TokenInfo) {k : String} {v : JValue}
    (h : dataGet (getTokenDataCore s ti) k = some v) :
    dataGet (GetTokenData s ti) k = some v := by
  unfold GetTokenData
  cases hf : s.extensionFieldsHandler with
  | none => exact h
  | some fn => exact dataGet_merge_preserved (fn ti) _ h

/-- C9 (amended): the token-data mapping carries `access_token`, `token_type`
and `expires_in` (the remaining lifetime divided by one second with Go's
truncating integer division); the builder itself adds `scope` (resp.
`refresh_token`) exactly when non-empty, and with no extension collaborator the
final mapping has those keys iff non-empty; extension fields never replace keys
already present. -/
theorem GetTokenData_fields (s : Server) (ti : TokenInfo) :
    dataGet (GetTokenData s ti) "access_token" = some (.str ti.access) ∧
    dataGet (GetTokenData s ti) "token_type" = some (.str s.config.tokenType) ∧
    dataGet (GetTokenData s ti) "expires_in" =
      some (.int (ti.accessExpiresIn.tdiv 1000000000)) ∧
    (ti.scope ≠ "" → dataGet (GetTokenData s ti) "scope" = some (.str ti.scope)) ∧
    (ti.refresh ≠ "" → dataGet (GetTokenData s ti) "refresh_token" = some (.str ti.refresh)) ∧
    (s.extensionFieldsHandler = none →
      ((dataGet (GetTokenData s ti) "scope").isSome ↔ ti.scope ≠ "") ∧
      ((dataGet (GetTokenData s ti) "refresh_token").isSome ↔ ti.refresh ≠ "")) ∧
    (∀ k v, dataGet (getTokenDataCore s ti) k = some v →
      dataGet (GetTokenData s ti) k = some v) := by
  obtain ⟨ha, ht, he⟩ := getTokenDataCore_lookup s ti
  obtain ⟨hs, hr, hs0, hr0⟩ := getTokenDataCore_cond_lookup s ti
  refine ⟨dataGet_GetTokenData_of_core s ti ha, dataGet_GetTokenData_of_core s ti ht,
    dataGet_GetTokenData_of_core s ti he,
    fun h => dataGet_GetTokenData_of_core s ti (hs h),
    fun h => dataGet_GetTokenData_of_core s ti (hr h), fun hx => ?_,
    fun k v h => dataGet_GetTokenData_of_core s ti h⟩
  have hcore : GetTokenData s ti = getTokenDataCore s ti := by
    unfold GetTokenData; rw [hx]
  rw [hcore]
  constructor
  · constructor
    · intro hp hs1
      rw [hs0 hs1] at hp
      simp at hp
    · intro h
      rw [hs h]
      rfl
  · constructor
    · intro hp hr1
      rw [hr0 hr1] at hp
      simp at hp
    · intro h
      rw [hr h]
      rfl

/-- A token info with scope `read` and a two-hour lifetime. -/
def tiScoped : TokenInfo :=
  { access := "tok1", refresh := "r9", scope := "read", accessExpiresIn := 7200000000000,
    code := "" }

/-- Witness for C9 (amended): a non-empty scope appears in the mapping. -/
theorem GetTokenData_fields_witness :
    dataGet (GetTokenData srvSample tiScoped) "scope" = some (.str "read") :=
  (GetTokenData_fields srvSample tiScoped).2.2.2.1 (by decide)

/-- An extension-fields collaborator that contributes a `scope` field. -/
def extScopeFn : TokenInfo → List (String × JValue) := fun _ => [("scope", JValue.str "extra")]

/-- A server with that extension collaborator configured. -/
def srvC9 : Server := { srvSample with extensionFieldsHandler := some extScopeFn }

/-- A token info that already expired one and a half seconds ago and has no
scope. -/
def tiC9 : TokenInfo :=
  { access := "a", refresh := "", scope := "", accessExpiresIn := -1500000000, code := "" }

/-- Counterexample for C9 as stated: on an expired token the code's `expires_in`
is the truncated quotient `-1`, not the floor `-2`; and with an extension
collaborator contributing a `scope` field the final mapping has a `scope` key
although the token's scope is empty. -/
theorem GetTokenData_claim_counterexample :
    dataGet (GetTokenData srvC9 tiC9) "expires_in" = some (JValue.int (-1)) ∧
    Int.fdiv (-1500000000) 1000000000 = -2 ∧
    dataGet (GetTokenData srvC9 tiC9) "scope" = some (JValue.str "extra") ∧
    tiC9.scope = "" :=
  ⟨by decide, by decide, by decide, rfl⟩

/-- Membership survives the extension-field merge (which only appends). -/
theorem mem_foldl_skip_append {kv : String × JValue} (ext d : List (String × JValue))
    (h : kv ∈ d) :
    kv ∈ ext.foldl (fun d2 p => if (dataGet d2 p.1).isSome then d2 else d2 ++ [p]) d := by
  induction ext generalizing d with
  | nil => exact h
  | cons hd tl ih =>
    rw [List.foldl_cons]
    by_cases hp : (dataGet d hd.1).isSome
    · rw [if_pos hp]; exact ih d h
    · rw [if_neg hp]; exact ih _ (List.mem_append_left [hd] h)

/-- The unconditional fields are members of the core mapping. -/
theorem getTokenDataCore_mem (s : Server) (ti : TokenInfo) :
    ("access_token", JValue.str ti.access) ∈ getTokenDataCore s ti ∧
    ("token_type", JValue.str s.config.tokenType) ∈ getTokenDataCore s ti ∧
    ("expires_in", JValue.int (ti.accessExpiresIn.tdiv 1000000000)) ∈ getTokenDataCore s ti := by
  by_cases h1 : ti.scope = "" <;> by_cases h2 : ti.refresh = "" <;>
    simp [getTokenDataCore, h1, h2]

/-- The unconditional fields are members of the full token-data mapping. -/
theorem GetTokenData_mem (s : Server) (ti : TokenInfo) :
    ("access_token", JValue.str ti.access) ∈ GetTokenData s ti ∧
    ("token_type", JValue.str s.config.tokenType) ∈ GetTokenData s ti ∧
    ("expires_in", JValue.int (ti.accessExpiresIn.tdiv 1000000000)) ∈ GetTokenData s ti := by
  obtain ⟨h1, h2, h3⟩ := getTokenDataCore_mem s ti
  unfold GetTokenData
  cases hf : s.extensionFieldsHandler with
  | none => exact ⟨h1, h2, h3⟩
  | some fn =>
    exact ⟨mem_foldl_skip_append (fn ti) _ h1, mem_foldl_skip_append (fn ti) _ h2,
      mem_foldl_skip_append (fn ti) _ h3⟩

/-- C6: for a `code`-response request with a parseable redirect URI, the
parameter set carries every key of the data mapping and the `state` parameter
(when non-empty and not shadowed by a data key); without a hash mark in the raw
redirect URI the result is the parsed URI re-rendered with the encoded
parameters as its query string, and with a hash mark the result is the original
redirect URI string with `?` and the encoded parameters appended, the URI's
pre-existing query being discarded. -/
theorem GetRedirectURI_code_flow (s : Server) (req : AuthorizeRequest)
    (data : List (String × JValue)) (u : URL)
    (hrt : req.responseType = responseTypeCode)
    (hu : parseURL req.redirectURI = some u) :
    (∀ kv ∈ data, (valuesGet (collectedParams req u data) kv.1).isSome) ∧
    (req.state ≠ "" → "state" ∉ data.map Prod.fst →
      valuesGet (collectedParams req u data) "state" = some req.state) ∧
    (strContains req.redirectURI (Char.ofNat 35) = false →
      GetRedirectURI s req data =
        .ok (urlToString { u with rawQuery := encodeValues (collectedParams req u data) })) ∧
    (strContains req.redirectURI (Char.ofNat 35) = true →
      GetRedirectURI s req data =
        .ok (req.redirectURI ++ String.singleton (Char.ofNat 63) ++
          encodeValues (collectedParams req u data)) ∧
      collectedParams req u data = collectedParams req { u with rawQuery := "" } data) := by
  refine ⟨fun kv hkv => ?_, fun hst hnot => ?_, fun h35 => ?_, fun h35 => ⟨?_, ?_⟩⟩
  · exact foldl_set_mem data _ hkv
  · unfold collectedParams
    simp only [hst, ne_eq, not_false_eq_true, if_true, ite_true]
    rw [foldl_set_not_mem data _ hnot, valuesGet_set_self]
  · simp [GetRedirectURI, hu, hrt, h35]
  · simp [GetRedirectURI, hu, hrt, h35]
  · unfold collectedParams
    rw [h35]
    simp

/-- C7: for a `token`-response request with a parseable redirect URI, whenever
the query-unescape of the encoded parameters succeeds the result is the parsed
URI re-rendered with an empty query string and that unescaped encoding as its
fragment; and when the data mapping is a token-data mapping the parameters carry
`access_token`, `token_type` and `expires_in`. -/
theorem GetRedirectURI_token_flow (s : Server) (req : AuthorizeRequest)
    (data : List (String × JValue)) (u : URL)
    (hrt : req.responseType = responseTypeToken)
    (hu : parseURL req.redirectURI = some u) :
    (∀ f, queryUnescape (encodeValues (collectedParams req u data)) = some f →
      GetRedirectURI s req data =
        .ok (urlToString { u with rawQuery := "", fragment := f })) ∧
    (∀ ti, data = GetTokenData s ti →
      (valuesGet (collectedParams req u data) "access_token").isSome ∧
      (valuesGet (collectedParams req u data) "token_type").isSome ∧
      (valuesGet (collectedParams req u data) "expires_in").isSome) := by
  constructor
  · intro f hf
    have hne : responseTypeToken ≠ responseTypeCode := by decide
    simp [GetRedirectURI, hu, hrt, hne, hf]
  · rintro ti rfl
    obtain ⟨h1, h2, h3⟩ := GetTokenData_mem s ti
    exact ⟨foldl_set_mem _ _ h1, foldl_set_mem _ _ h2, foldl_set_mem _ _ h3⟩

/-- The authorize request of the code-flow scenario. -/
def req6 : AuthorizeRequest :=
  { redirectURI := "https://app/cb", responseType := responseTypeCode, clientID := "c1",
    state := "xyz", scope := "" }

/-- The data mapping of the code-flow scenario: the generated code. -/
def data6 : List (String × JValue) := [("code", JValue.str "abc123")]

/-- The parse of `https://app/cb`. -/
def url6 : URL :=
  { scheme := "https", host := "app", path := "/cb", rawQuery := "", fragment := "" }

/-- Witness for C6 (spec scenario): the code flow redirects to
`https://app/cb?code=abc123&state=xyz`. -/
theorem GetRedirectURI_code_flow_witness :
    parseURL "https://app/cb" = some url6 ∧
    GetRedirectURI srvSample req6 data6 = .ok "https://app/cb?code=abc123&state=xyz" := by
  constructor
  · decide
  · have h := (GetRedirectURI_code_flow srvSample req6 data6 url6 rfl (by decide)).2.2.1 (by decide)
    rw [h]; exact congrArg Except.ok (by decide)

/-- The authorize request of the implicit-flow scenario. -/
def req7 : AuthorizeRequest :=
  { redirectURI := "https://app/cb", responseType := responseTypeToken, clientID := "c1",
    state := "", scope := "" }

/-- The token of the implicit-flow scenario: access token `tok1`, two-hour
lifetime, no refresh token, no scope. -/
def ti7 : TokenInfo :=
  { access := "tok1", refresh := "", scope := "", accessExpiresIn := 7200000000000, code := "" }

/-- Witness for C7 (spec scenario): the implicit flow redirects to
`https://app/cb` with an empty query and the token data in the fragment. -/
theorem GetRedirectURI_token_flow_witness :
    GetRedirectURI srvSample req7 (GetTokenData srvSample ti7) =
      .ok "https://app/cb#access_token=tok1&expires_in=7200&token_type=Bearer" := by
  have h := (GetRedirectURI_token_flow srvSample req7 (GetTokenData srvSample ti7) url6
    rfl (by decide)).1 "access_token=tok1&expires_in=7200&token_type=Bearer" (by decide)
  rw [h]; exact congrArg Except.ok (by decide)
